import Mathlib

/-!
# Kabob Store backend — verification of the spec claims

A shallow embedding of the core logic of `src/backend/main.py` (a FastAPI
backend over Aurora DSQL).  Python strings are modelled as `List Char`,
money amounts as `ℚ`, timestamps as `ℕ` (a monotone logical clock), and
fallible operations as `Except`.  Database reads and the external token
service are modelled by explicit parameters carrying the environment's
answer, so every definition is executable.
-/

deriving instance DecidableEq for Except

namespace KabobStore

/-! ## Basic string machinery (Python `str` operations on `List Char`) -/

/-- The whitespace characters stripped by Python's `str.strip()` (ASCII part). -/
def pySpace (c : Char) : Bool :=
  c = ' ' || c = '\t' || c = '\n' || c = '\r' || c = '\x0b' || c = '\x0c'

/-- Python `value.strip()`: drop whitespace from both ends. -/
def pyStrip (l : List Char) : List Char :=
  ((l.dropWhile pySpace).reverse.dropWhile pySpace).reverse

/-- `sanitize_string` from `main.py` (lines 172–182): empty in, empty out;
otherwise remove null bytes, truncate to `maxLength` characters, and strip
leading/trailing whitespace. -/
def sanitize_string (value : List Char) (maxLength : Nat) : List Char :=
  if value = [] then []
  else pyStrip ((value.filter (fun c => c ≠ '\x00')).take maxLength)

/-- A list is already stripped: no leading and no trailing whitespace. -/
def Stripped (l : List Char) : Prop :=
  l.dropWhile pySpace = l ∧ l.reverse.dropWhile pySpace = l.reverse

/-! ## Substring search, lowercasing and integer parsing (Python built-ins) -/

/-- `hay` starts with `needle` (character-wise). -/
def listStartsWith : List Char → List Char → Bool
  | _, [] => true
  | [], _ :: _ => false
  | a :: hs, b :: ns => a == b && listStartsWith hs ns

/-- Python's `needle in hay` for strings: contiguous substring test. -/
def pyIn (needle : List Char) : List Char → Bool
  | [] => listStartsWith [] needle
  | c :: t => listStartsWith (c :: t) needle || pyIn needle t

/-- Python's `str.lower()` (ASCII range, which covers every fixed pattern
the middleware compares against). -/
def pyLower (l : List Char) : List Char := l.map Char.toLower

/-- Digit run after the first digit of a Python integer literal: digits,
with single underscores allowed between digits. -/
def pyDigitsTail : List Char → Bool
  | [] => true
  | '_' :: rest =>
    match rest with
    | c :: rest' => c.isDigit && pyDigitsTail rest'
    | [] => false
  | c :: rest => c.isDigit && pyDigitsTail rest

/-- A valid unsigned digit group for Python `int(...)`. -/
def pyDigitsValid : List Char → Bool
  | [] => false
  | c :: rest => c.isDigit && pyDigitsTail rest

/-- Numeric value of a digit group (underscores skipped). -/
def digitsVal (l : List Char) : Nat :=
  (l.filter (fun c => c ≠ '_')).foldl (fun n c => 10 * n + (c.toNat - '0'.toNat)) 0

/-- Python `int(s)`: strip whitespace, optional sign, digit group
(underscore separators allowed); `none` models the `ValueError` raise. -/
def pyInt (s : List Char) : Option Int :=
  match pyStrip s with
  | '+' :: rest => if pyDigitsValid rest then some (digitsVal rest) else none
  | '-' :: rest => if pyDigitsValid rest then some (-(digitsVal rest : Int)) else none
  | t => if pyDigitsValid t then some (digitsVal t) else none

/-! ## DSQL connection manager (`DSQLConnectionManager`, lines 93–167) -/

/-- psycopg2 transaction status values, as far as the manager inspects
them (`TRANSACTION_STATUS_INERROR` is the one acted upon). -/
inductive TxStatus
  | idle
  | active
  | inTrans
  | inError
  | unknown

deriving DecidableEq

/-- A psycopg2 connection as the manager observes it: the `closed`
attribute (0 means open) and the transaction status. -/
structure PgConn where
  closed : ℕ
  txStatus : TxStatus

deriving DecidableEq

/-- The mutable state of `DSQLConnectionManager` (lines 96–100).  The
`threading.Lock` serializes calls, so a sequential model of one call at a
time captures the locked body. -/
structure MgrState where
  connection : Option PgConn
  token : Option (List Char)
  token_expires_at : Option ℕ

deriving DecidableEq

/-- `get_fresh_token` reports expiry 55 minutes from now (line 114:
1-hour tokens refreshed 5 minutes early).  Time is counted in minutes. -/
def tokenRefreshWindow : ℕ := 55

/-- Externally visible actions of one `get_connection` call. -/
inductive MgrAction
  | fetchToken
  | closeOld
  | openNew
  | rollback

deriving DecidableEq

/-- The refresh condition of `get_connection` (lines 125–129): no token,
no cached expiry, expiry reached, no connection, or connection closed. -/
def needsRefresh (st : MgrState) (now : ℕ) : Bool :=
  st.token.isNone || st.token_expires_at.isNone ||
  (match st.token_expires_at with
   | none => true
   | some e => decide (e ≤ now)) ||
  st.connection.isNone ||
  (match st.connection with
   | none => true
   | some c => decide (c.closed ≠ 0))

/-- `get_connection` (lines 121–167): when refresh is needed, fetch a
fresh token, close the old connection if it is open, and open a new one;
otherwise return the existing connection, rolling back first when it
reports an in-error transaction.  Returns the new manager state, the
connection handed to the caller, and the actions performed.  `now` is the
current time in minutes and `freshTok` the token the credential provider
would mint. -/
def get_connection (st : MgrState) (now : ℕ) (freshTok : List Char) :
    MgrState × PgConn × List MgrAction :=
  if needsRefresh st now then
    let closeActs : List MgrAction :=
      match st.connection with
      | some c => if c.closed = 0 then [MgrAction.closeOld] else []
      | none => []
    let newConn : PgConn := ⟨0, TxStatus.idle⟩
    (⟨some newConn, some freshTok, some (now + tokenRefreshWindow)⟩, newConn,
      [MgrAction.fetchToken] ++ closeActs ++ [MgrAction.openNew])
  else
    match st.connection with
    | some c =>
      if c.txStatus = TxStatus.inError then
        let c' : PgConn := ⟨c.closed, TxStatus.idle⟩
        (⟨some c', st.token, st.token_expires_at⟩, c', [MgrAction.rollback])
      else (st, c, [])
    | none => (st, ⟨0, TxStatus.idle⟩, [])

/-! ## Schema initialization (`ensure_tables_exist`, lines 192–241) -/

/-- SQL operations at the granularity `ensure_tables_exist` issues them. -/
inductive SqlOp
  | createTable (table : List Char)
  | commit
  | rollback

deriving DecidableEq

/-- The straight-line operation sequence of `ensure_tables_exist`:
create `menu_items`, commit, create `orders`, commit — one DDL per
committed transaction (DSQL allows only one DDL statement per
transaction). -/
def ensureTablesProgram : List SqlOp :=
  [SqlOp.createTable (("menu_items").toList), SqlOp.commit,
   SqlOp.createTable (("orders").toList), SqlOp.commit]

/-- Run a straight-line SQL program.  `failAt = some k` makes the k-th
operation raise, upon which the `except` handler rolls back and re-raises
(the `Bool` is `true` iff the function returned normally). -/
def runSql : List SqlOp → Option ℕ → List SqlOp × Bool
  | [], _ => ([], true)
  | _ :: _, some 0 => ([SqlOp.rollback], false)
  | op :: rest, some (k + 1) =>
    let r := runSql rest (some k)
    (op :: r.1, r.2)
  | op :: rest, none =>
    let r := runSql rest none
    (op :: r.1, r.2)

/-- `ensure_tables_exist` as an operation trace plus success flag. -/
def ensure_tables_exist (failAt : Option ℕ) : List SqlOp × Bool :=
  runSql ensureTablesProgram failAt

/-- Split a trace into transactions: the segments delimited by `commit`. -/
def txSegments : List SqlOp → List (List SqlOp)
  | [] => [[]]
  | SqlOp.commit :: rest => [] :: txSegments rest
  | op :: rest =>
    match txSegments rest with
    | s :: ss => (op :: s) :: ss
    | [] => [[op]]

/-- Number of DDL (CREATE TABLE) statements in a trace segment. -/
def ddlCount (seg : List SqlOp) : ℕ :=
  (seg.filter (fun op => match op with
    | SqlOp.createTable _ => true
    | _ => false)).length

/-! ## Menu data model, seed data and the read paths -/

/-- A row of the `menu_items` table (schema at lines 203–214).  `NULL`able
columns are `Option`; `created_at` is a logical timestamp. -/
structure MenuRow where
  id : List Char
  name : List Char
  description : List Char
  price : ℚ
  category : List Char
  image_url : Option (List Char)
  available : Bool
  created_at : Option ℕ

deriving DecidableEq

/-- One tuple of the fixed `sample_items` list (lines 247–254). -/
structure SeedItem where
  name : List Char
  description : List Char
  price : ℚ
  category : List Char
  image_url : List Char

deriving DecidableEq

/-- The fixed seed tuples of `create_sample_menu_items` (lines 247–254). -/
def sample_items : List SeedItem :=
  [⟨("Chicken Kabob").toList,
    ("Grilled chicken skewers with Mediterranean spices").toList, 1299/100,
    ("Kabobs").toList,
    ("https://carlsbadcravings.com/wp-content/uploads/2023/06/Chicken-Kabobs-5.jpg").toList⟩,
   ⟨("Beef Kabob").toList,
    ("Tender beef cubes marinated in herbs").toList, 1499/100,
    ("Kabobs").toList,
    ("https://www.recipetineats.com/tachyon/2018/07/Beef-Kabobs_2.jpg?resize=900%2C1260&zoom=1").toList⟩,
   ⟨("Lamb Kabob").toList,
    ("Succulent lamb with traditional seasonings").toList, 1699/100,
    ("Kabobs").toList,
    ("https://www.acommunaltable.com/wp-content/uploads/2022/08/lamb-kebab-with-drizzle-1024x1536.jpeg").toList⟩,
   ⟨("Vegetable Kabob").toList,
    ("Fresh seasonal vegetables grilled to perfection").toList, 999/100,
    ("Kabobs").toList,
    ("https://www.veggiessavetheday.com/wp-content/uploads/2021/05/Grilled-Veggie-Kabobs-platter-1200x1800-1.jpg").toList⟩,
   ⟨("Hummus & Pita").toList,
    ("Creamy chickpea dip with olive oil").toList, 699/100,
    ("Appetizers").toList,
    ("https://images.squarespace-cdn.com/content/v1/5ed666a6924cd0017d343b01/1593544179725-1WMOUEETKOKCYY7JZ5FJ/bite-me-more-roasted-red-pepper-hummus-spiced-pita-chips-recipe.jpg?format=2500w").toList⟩,
   ⟨("Baklava").toList,
    ("Sweet pastry with nuts and honey").toList, 499/100,
    ("Desserts").toList,
    ("https://img.sndimg.com/food/image/upload/f_auto,c_thumb,q_55,w_860,ar_3:2/v1/img/recipes/59/86/3/Ye35HYGSEGgc0oGCIUag_Baklava-2.jpg").toList⟩]

/-- Data-changing actions of the seeding path. -/
inductive SeedAction
  | deleteAllMenuItems
  | insertMenuItem (name : List Char)
  | commitSeed

deriving DecidableEq

/-- The row inserted for seed item `it` at position `i`: a fresh UUID from
`gen`, availability `True`, `created_at` from the database default. -/
def seedRow (gen : ℕ → List Char) (now : ℕ) (i : ℕ) (it : SeedItem) : MenuRow :=
  ⟨gen i, it.name, it.description, it.price, it.category, some it.image_url,
    true, some now⟩

/-- `create_sample_menu_items` (lines 243–282): delete every existing
menu row, insert the six seed items each under a freshly generated UUID,
and commit everything together in one transaction.  The first component
is the resulting `menu_items` table, the second the action trace. -/
def create_sample_menu_items (db : List MenuRow) (gen : ℕ → List Char)
    (now : ℕ) : List MenuRow × List SeedAction :=
  let _ := db
  (sample_items.enum.map (fun p => seedRow gen now p.1 p.2),
    [SeedAction.deleteAllMenuItems] ++
      sample_items.map (fun it => SeedAction.insertMenuItem it.name) ++
      [SeedAction.commitSeed])

/-- `initialize_database_with_sample_data` (lines 517–547):
`ensure_tables_exist` runs first and changes no rows (`CREATE TABLE IF NOT
EXISTS`); then the menu-item count decides whether to seed. -/
def initialize_database_with_sample_data (db : List MenuRow)
    (gen : ℕ → List Char) (now : ℕ) : List MenuRow × List SeedAction :=
  if db.length = 0 then create_sample_menu_items db gen now
  else (db, [])

/-- A menu item as the read path returns it (`str`/`float`/`isoformat`
conversions are identities in the model). -/
structure MenuItemOut where
  id : List Char
  name : List Char
  description : List Char
  price : ℚ
  category : List Char
  image_url : Option (List Char)
  available : Bool
  created_at : Option ℕ

deriving DecidableEq

/-- Row-to-dict conversion in `get_menu_items` (lines 300–310). -/
def rowToMenuItemOut (r : MenuRow) : MenuItemOut :=
  ⟨r.id, r.name, r.description, r.price, r.category, r.image_url,
    r.available, r.created_at⟩

/-- `get_sample_menu_items` (lines 448–511): the in-memory fallback list,
with a fresh UUID per entry and the current time as `created_at`. -/
def get_sample_menu_items (gen : ℕ → List Char) (now : ℕ) : List MenuItemOut :=
  [⟨gen 0, ("Chicken Kabob").toList,
    ("Grilled chicken skewers with Mediterranean spices").toList, 1299/100,
    ("Kabobs").toList,
    some (("https://carlsbadcravings.com/wp-content/uploads/2023/06/Chicken-Kabobs-5.jpg").toList),
    true, some now⟩,
   ⟨gen 1, ("Beef Kabob").toList,
    ("Tender beef cubes marinated in herbs").toList, 1499/100,
    ("Kabobs").toList,
    some (("https://www.recipetineats.com/tachyon/2018/07/Beef-Kabobs_2.jpg?resize=900%2C1260&zoom=1").toList),
    true, some now⟩,
   ⟨gen 2, ("Lamb Kabob").toList,
    ("Succulent lamb with traditional seasonings").toList, 1699/100,
    ("Kabobs").toList,
    some (("https://www.acommunaltable.com/wp-content/uploads/2022/08/lamb-kebab-with-drizzle-1024x1536.jpeg").toList),
    true, some now⟩,
   ⟨gen 3, ("Vegetable Kabob").toList,
    ("Fresh seasonal vegetables grilled to perfection").toList, 999/100,
    ("Kabobs").toList,
    some (("https://www.veggiessavetheday.com/wp-content/uploads/2021/05/Grilled-Veggie-Kabobs-platter-1200x1800-1.jpg").toList),
    true, some now⟩,
   ⟨gen 4, ("Hummus & Pita").toList,
    ("Creamy chickpea dip with olive oil").toList, 699/100,
    ("Appetizers").toList,
    some (("https://images.squarespace-cdn.com/content/v1/5ed666a6924cd0017d343b01/1593544179725-1WMOUEETKOKCYY7JZ5FJ/bite-me-more-roasted-red-pepper-hummus-spiced-pita-chips-recipe.jpg?format=2500w").toList),
    true, some now⟩,
   ⟨gen 5, ("Baklava").toList,
    ("Sweet pastry with nuts and honey").toList, 499/100,
    ("Desserts").toList,
    some (("https://img.sndimg.com/food/image/upload/f_auto,c_thumb,q_55,w_860,ar_3:2/v1/img/recipes/59/86/3/Ye35HYGSEGgc0oGCIUag_Baklava-2.jpg").toList),
    true, some now⟩]

/-- `get_menu_items` (lines 285–323).  `acquire` is the outcome of
`dsql_manager.get_connection()` and `conn.cursor()` (lines 287–288),
which run *before* the `try`: their failure propagates (an `.error`
result models the exception reaching the HTTP caller).  `query` is the
database's answer to the SELECT inside the `try`; any failure there is
swallowed and replaced by the in-memory sample list. -/
def get_menu_items (acquire : Except (List Char) Unit)
    (query : Except (List Char) (List MenuRow))
    (gen : ℕ → List Char) (now : ℕ) :
    Except (List Char) (List MenuItemOut) :=
  match acquire with
  | .error e => .error e
  | .ok _ =>
    match query with
    | .ok rows => .ok (rows.map rowToMenuItemOut)
    | .error _ => .ok (get_sample_menu_items gen now)

/-! ## Orders data model and the order workflow -/

/-- One submitted order line (`OrderItemCreate`, lines 603–616). -/
structure OrderItemCreate where
  id : List Char
  name : List Char
  price : ℚ
  quantity : ℕ

deriving DecidableEq

/-- A row of the `orders` table (schema at lines 221–230).  The `items`
TEXT column stores the JSON-serialized lines; serialization is bijective
and plays no role in any claim, so the model keeps the decoded list. -/
structure OrderRow where
  id : List Char
  customer_name : List Char
  customer_email : List Char
  items : List OrderItemCreate
  total_amount : ℚ
  status : List Char
  created_at : ℕ

deriving DecidableEq

/-- The orders table plus the `CURRENT_TIMESTAMP` source: a well-formed
database stamps every stored row strictly before `clock`. -/
structure OrdersDb where
  rows : List OrderRow
  clock : ℕ

deriving DecidableEq

/-- Every stored row was created strictly before the current clock. -/
def OrdersDb.WF (db : OrdersDb) : Prop :=
  ∀ r ∈ db.rows, r.created_at < db.clock

/-- `SELECT ... ORDER BY created_at DESC LIMIT 1`: a row with maximal
`created_at` (ties broken towards earlier rows — irrelevant below, where
the maximum is strict). -/
def newestRow : List OrderRow → Option OrderRow
  | [] => none
  | r :: rest =>
    match newestRow rest with
    | none => some r
    | some m => if r.created_at ≥ m.created_at then some r else some m

/-- Errors of the order workflow: `ValueError` for policy violations,
and a generic persistence exception. -/
inductive OrderError
  | invalid (msg : List Char)
  | persistence (msg : List Char)

deriving DecidableEq

/-- The message of the final `raise` in `create_order` (line 385). -/
def orderUnreadableMsg : List Char :=
  ("Order was created but could not be retrieved - no orders in database").toList

/-- The row `create_order` inserts (lines 344 and 357–360): generated
UUID, sanitized name and e-mail, the lines, the passed total, status
`pending`, `created_at` from the database clock. -/
def freshOrderRow (name email : List Char) (items : List OrderItemCreate)
    (total : ℚ) (clock : ℕ) (newId : List Char) : OrderRow :=
  ⟨newId, name, email, items, total, ("pending").toList, clock⟩

/-- `create_order` (lines 325–409).  `newId` is the UUID generated for the
order.  `idMiss` and `fbMiss` model the read-after-write anomaly the code
defends against: whether the just-inserted row is invisible to the
re-query by ID, respectively to the fallback newest-order query (rows
already present stay visible).  The duplicate-ID error models the
PRIMARY KEY constraint of the INSERT.  On success the function returns the
row it builds its response from together with the committed database; on
failure the transaction is rolled back, leaving the database unchanged. -/
def create_order (customer_name customer_email : List Char)
    (items : List OrderItemCreate) (total_amount : ℚ) (db : OrdersDb)
    (newId : List Char) (idMiss fbMiss : Bool) :
    Except OrderError (OrderRow × OrdersDb) :=
  let name := sanitize_string customer_name 255
  let email := sanitize_string customer_email 255
  if name = [] ∨ email = [] then
    .error (.invalid (("Customer name and email are required").toList))
  else if items = [] then
    .error (.invalid (("Order must contain at least one item").toList))
  else if total_amount ≤ 0 ∨ 100000 < total_amount then
    .error (.invalid (("Invalid total amount").toList))
  else if db.rows.any (fun r => r.id == newId) then
    .error (.persistence (("duplicate key value violates unique constraint").toList))
  else
    let fresh : OrderRow := freshOrderRow name email items total_amount db.clock newId
    let visible1 := if idMiss then db.rows else db.rows ++ [fresh]
    let visible2 := if fbMiss then db.rows else db.rows ++ [fresh]
    let row1 := visible1.find? (fun r => r.id == newId)
    match row1.orElse (fun _ => newestRow visible2) with
    | some row => .ok (row, ⟨db.rows ++ [fresh], db.clock + 1⟩)
    | none => .error (.persistence orderUnreadableMsg)

/-- `get_all_orders` (lines 411–446): same structure as the menu read —
connection/cursor acquisition (lines 413–414) precedes the `try` and its
failure propagates, while a failed SELECT inside the `try` is swallowed
and yields the empty list.  (Row-to-dict conversion is the identity in
the model.) -/
def get_all_orders (acquire : Except (List Char) Unit)
    (query : Except (List Char) (List OrderRow)) :
    Except (List Char) (List OrderRow) :=
  match acquire with
  | .error e => .error e
  | .ok _ =>
    match query with
    | .ok rows => .ok rows
    | .error _ => .ok []

/-- `OrderCreate` (lines 618–648): the request model carries the customer
name, the e-mail and the lines — it has no total field, so no
client-supplied total exists. -/
structure OrderCreate where
  customer_name : List Char
  customer_email : List Char
  items : List OrderItemCreate

/-- The server-computed total of `create_order_endpoint` (line 698):
`sum(item.price * item.quantity for item in order.items)`. -/
def computeTotal (items : List OrderItemCreate) : ℚ :=
  (items.map (fun i => i.price * (i.quantity : ℚ))).sum

/-- `create_order_endpoint` (lines 694–723): compute the total from the
validated lines and call `create_order`, under the same read-anomaly
environment flags `create_order` is exposed to (`idMiss`/`fbMiss` both
`false` is the anomaly-free execution). -/
def create_order_endpoint (order : OrderCreate) (db : OrdersDb)
    (newId : List Char) (idMiss fbMiss : Bool) :
    Except OrderError (OrderRow × OrdersDb) :=
  create_order order.customer_name order.customer_email order.items
    (computeTotal order.items) db newId idMiss fbMiss

/-! ## Request sanitization middleware (`validate_request`, lines 50–85) -/

/-- The fixed signature list scanned for in every request URL. -/
def suspicious_patterns : List (List Char) :=
  [("../").toList, ("..\\").toList,
   ("<script").toList, ("<%").toList,
   ("DROP TABLE").toList, ("DELETE FROM").toList,
   ("\x00").toList,
   ("cmd=").toList, ("exec(").toList]

/-- `pattern.lower() in path.lower()` for some pattern in the signature list. -/
def urlSuspicious (url : List Char) : Bool :=
  suspicious_patterns.any (fun pat => pyIn (pyLower pat) (pyLower url))

/-- Outcome of the middleware: an early rejection response with a status
code, or forwarding the request to the route handler (`call_next`). -/
inductive MiddlewareResult
  | reject (status : Nat)
  | forward

deriving DecidableEq

/-- The `validate_request` middleware: reject 400 on a suspicious URL;
otherwise reject 413 when a nonempty `content-length` header parses to an
integer above 1 MiB (`int` failure, i.e. a non-numeric header, is ignored);
otherwise forward to the handler. -/
def validate_request (url : List Char) (contentLength : Option (List Char)) :
    MiddlewareResult :=
  if urlSuspicious url then .reject 400
  else
    match contentLength with
    | none => .forward
    | some cl =>
      if cl = [] then .forward
      else
        match pyInt cl with
        | some size => if size > 1048576 then .reject 413 else .forward
        | none => .forward

/-! ## Order-item validation (`OrderCreate.validate_items`, lines 642–648) -/

/-- The fixed message raised for duplicated order lines. -/
def duplicateItemsMsg : List Char :=
  ("Duplicate items in order. Please adjust quantities instead.").toList

/-- `OrderCreate.validate_items`: reject when the lines' menu-item IDs
contain a duplicate (`len(item_ids) != len(set(item_ids))`). -/
def validate_items (v : List OrderItemCreate) :
    Except (List Char) (List OrderItemCreate) :=
  let item_ids := v.map OrderItemCreate.id
  if item_ids.length ≠ item_ids.dedup.length then .error duplicateItemsMsg
  else .ok v

/-! ## Menu-item price validation (`MenuItemCreate.validate_price`, lines 549–576) -/

/-- Round half to even to the nearest integer — the rounding Python's
built-in `round` applies. -/
def roundHalfEven (q : ℚ) : ℤ :=
  if q - ⌊q⌋ < 1/2 then ⌊q⌋
  else if 1/2 < q - ⌊q⌋ then ⌊q⌋ + 1
  else if ⌊q⌋ % 2 = 0 then ⌊q⌋ else ⌊q⌋ + 1

/-- Python `round(v, 2)`: the value rounded to two decimal places. -/
def roundTo2 (q : ℚ) : ℚ := (roundHalfEven (q * 100) : ℚ) / 100

/-- `MenuItemCreate.validate_price` together with the `price` field bounds
`gt=0, le=10000` (line 552): reject a non-positive or above-10000 price,
otherwise return it rounded to 2 decimal places. -/
def validate_price (v : ℚ) : Except (List Char) ℚ :=
  if v ≤ 0 then .error (("Price must be positive").toList)
  else if 10000 < v then .error (("Price exceeds maximum allowed value").toList)
  else .ok (roundTo2 v)

/-! ## Theorems -/

/-! ### Facts about `dropWhile` and `pyStrip` -/

theorem dropWhile_length_le (p : Char → Bool) (l : List Char) :
    (l.dropWhile p).length ≤ l.length := by
  induction l with
  | nil => simp
  | cons a t ih =>
    by_cases h : p a
    · simp [List.dropWhile, h]; omega
    · simp [List.dropWhile, h]

theorem mem_of_mem_dropWhile (p : Char → Bool) (l : List Char) (c : Char)
    (h : c ∈ l.dropWhile p) : c ∈ l := by
  induction l with
  | nil => simp [List.dropWhile] at h
  | cons a t ih =>
    by_cases hp : p a
    · simp only [List.dropWhile, hp] at h
      exact List.mem_cons_of_mem _ (ih h)
    · simpa [List.dropWhile, hp] using h

theorem dropWhile_head_false (p : Char → Bool) (l : List Char) :
    l.dropWhile p = [] ∨
      ∃ c t, l.dropWhile p = c :: t ∧ p c = false := by
  induction l with
  | nil => left; rfl
  | cons a t ih =>
    by_cases hp : p a
    · simpa [List.dropWhile, hp] using ih
    · right; exact ⟨a, t, by simp [List.dropWhile, hp], by simpa using hp⟩

theorem dropWhile_of_head_false (p : Char → Bool) (c : Char) (t : List Char)
    (h : p c = false) : (c :: t).dropWhile p = c :: t := by
  simp [List.dropWhile, h]

theorem dropWhile_idem (p : Char → Bool) (l : List Char) :
    (l.dropWhile p).dropWhile p = l.dropWhile p := by
  rcases dropWhile_head_false p l with h | ⟨c, t, h, hc⟩
  · simp [h]
  · rw [h, dropWhile_of_head_false p c t hc]

theorem pyStrip_length_le (l : List Char) : (pyStrip l).length ≤ l.length := by
  unfold pyStrip
  calc ((l.dropWhile pySpace).reverse.dropWhile pySpace).reverse.length
      = ((l.dropWhile pySpace).reverse.dropWhile pySpace).length := by
        simp
    _ ≤ (l.dropWhile pySpace).reverse.length := dropWhile_length_le _ _
    _ = (l.dropWhile pySpace).length := by simp
    _ ≤ l.length := dropWhile_length_le _ _

theorem mem_of_mem_pyStrip (l : List Char) (c : Char) (h : c ∈ pyStrip l) :
    c ∈ l := by
  unfold pyStrip at h
  rw [List.mem_reverse] at h
  have h1 := mem_of_mem_dropWhile pySpace _ _ h
  rw [List.mem_reverse] at h1
  exact mem_of_mem_dropWhile pySpace _ _ h1

theorem dropWhile_suffix (p : Char → Bool) (l : List Char) :
    ∃ s, l = s ++ l.dropWhile p := by
  induction l with
  | nil => exact ⟨[], rfl⟩
  | cons a t ih =>
    by_cases hp : p a
    · obtain ⟨s, hs⟩ := ih
      exact ⟨a :: s, by simp [List.dropWhile, hp]; exact hs⟩
    · exact ⟨[], by simp [List.dropWhile, hp]⟩

theorem pyStrip_stripped (l : List Char) : Stripped (pyStrip l) := by
  set A := l.dropWhile pySpace with hA
  set B := A.reverse.dropWhile pySpace with hB
  constructor
  · show B.reverse.dropWhile pySpace = B.reverse
    obtain ⟨C, hC⟩ := dropWhile_suffix pySpace A.reverse
    have hAeq : A = B.reverse ++ C.reverse := by
      have := congrArg List.reverse hC
      simpa using this
    cases hBR : B.reverse with
    | nil => simp
    | cons c t =>
      have hAhead : A = c :: (t ++ C.reverse) := by rw [hAeq, hBR]; simp
      have hcfalse : pySpace c = false := by
        rcases dropWhile_head_false pySpace l with h | ⟨c', t', h, hc'⟩
        · rw [← hA] at h; rw [h] at hAhead; exact absurd hAhead (by simp)
        · rw [← hA] at h
          rw [h] at hAhead
          have : c' = c := by injection hAhead with h1 _
          rwa [this] at hc'
      exact dropWhile_of_head_false pySpace c t hcfalse
  · show B.reverse.reverse.dropWhile pySpace = B.reverse.reverse
    simpa using dropWhile_idem pySpace A.reverse

theorem pyStrip_of_stripped (l : List Char) (h : Stripped l) : pyStrip l = l := by
  obtain ⟨h1, h2⟩ := h
  unfold pyStrip
  rw [h1, h2]
  simp

theorem sanitize_string_length_le (value : List Char) :
    (sanitize_string value 255).length ≤ 255 := by
  unfold sanitize_string
  by_cases h : value = []
  · simp [h]
  · simp only [h, if_false]
    calc (pyStrip ((value.filter (fun c => c ≠ '\x00')).take 255)).length
        ≤ ((value.filter (fun c => c ≠ '\x00')).take 255).length :=
          pyStrip_length_le _
      _ ≤ 255 := by simp

theorem sanitize_string_no_null (value : List Char) :
    '\x00' ∉ sanitize_string value 255 := by
  unfold sanitize_string
  by_cases h : value = []
  · simp [h]
  · simp only [h, if_false]
    intro hmem
    have h1 := mem_of_mem_pyStrip _ _ hmem
    have h2 := List.mem_of_mem_take h1
    have h3 := List.mem_filter.mp h2
    simp at h3

theorem sanitize_string_stripped (value : List Char) :
    Stripped (sanitize_string value 255) := by
  unfold sanitize_string
  by_cases h : value = []
  · rw [if_pos h]; exact ⟨rfl, rfl⟩
  · simp only [h, if_false]
    exact pyStrip_stripped _

theorem sanitize_string_fixed (r : List Char) (hlen : r.length ≤ 255)
    (hnull : '\x00' ∉ r) (hstr : Stripped r) : sanitize_string r 255 = r := by
  by_cases hr : r = []
  · rw [hr]; rfl
  · unfold sanitize_string
    rw [if_neg hr]
    have hfilter : r.filter (fun c => c ≠ '\x00') = r := by
      rw [List.filter_eq_self]
      intro a ha
      have : a ≠ '\x00' := fun heq => hnull (heq ▸ ha)
      simp [this]
    rw [hfilter, List.take_of_length_le hlen]
    exact pyStrip_of_stripped _ hstr

theorem sanitize_string_idem (value : List Char) :
    sanitize_string (sanitize_string value 255) 255 = sanitize_string value 255 :=
  sanitize_string_fixed _ (sanitize_string_length_le value)
    (sanitize_string_no_null value) (sanitize_string_stripped value)

theorem length_eq_dedup_iff_nodup (l : List (List Char)) :
    l.length = l.dedup.length ↔ l.Nodup := by
  constructor
  · intro h
    have hsub : l.dedup.Sublist l := List.dedup_sublist l
    have : l.dedup = l := hsub.eq_of_length h.symm
    rw [← this]
    exact List.nodup_dedup l
  · intro h
    rw [List.Nodup.dedup h]

/-- C8 counterexample: a request whose URL carries a traversal signature
*and* whose declared content length parses above 1048576 is answered with
400, not 413, so "returns HTTP 413 iff the declared content-length parses
as an integer strictly greater than 1048576" is false as stated. -/
theorem validate_request_c8_counterexample :
    pyInt (("2000000").toList) = some 2000000 ∧
    (1048576 : Int) < 2000000 ∧
    validate_request (("http://x/../a").toList) (some (("2000000").toList)) =
      MiddlewareResult.reject 400 ∧
    validate_request (("http://x/../a").toList) (some (("2000000").toList)) ≠
      MiddlewareResult.reject 413 :=
  ⟨by decide, by decide, by decide, by decide⟩

/-- C8 (amended): the middleware rejects with 400 iff the URL contains one
of the fixed signatures case-insensitively; it rejects with 413 iff the URL
is clean and the declared content length parses as an integer above
1048576; a header that fails integer parsing is treated exactly like an
absent header. -/
theorem validate_request_c8 (url : List Char) (cl : Option (List Char)) :
    (validate_request url cl = MiddlewareResult.reject 400 ↔
      urlSuspicious url = true) ∧
    (validate_request url cl = MiddlewareResult.reject 413 ↔
      (urlSuspicious url = false ∧
        ∃ s n, cl = some s ∧ pyInt s = some n ∧ 1048576 < n)) ∧
    (∀ s, cl = some s → pyInt s = none →
      validate_request url (some s) = validate_request url none) := by
  refine ⟨?_, ?_, ?_⟩
  · by_cases hu : urlSuspicious url
    · simp [validate_request, hu]
    · simp only [validate_request, hu, if_false, Bool.false_eq_true, iff_false]
      match cl with
      | none => simp
      | some s =>
        by_cases hs : s = []
        · simp [hs]
        · simp only [hs, if_false]
          match hp : pyInt s with
          | none => simp
          | some n =>
            by_cases hn : n > 1048576
            · simp [hn]
            · simp [hn]
  · by_cases hu : urlSuspicious url
    · simp [validate_request, hu]
    · simp only [validate_request, hu, if_false, Bool.false_eq_true, true_and]
      match cl with
      | none => simp
      | some s =>
        by_cases hs : s = []
        · subst hs
          simp only [if_pos rfl]
          constructor
          · intro h; exact absurd h (by simp)
          · rintro ⟨s', n, hs', hp, _⟩
            obtain rfl : s' = [] := by injection hs' with h; exact h.symm
            simp [pyInt, pyStrip, pyDigitsValid] at hp
        · simp only [hs, if_false]
          match hp : pyInt s with
          | none =>
            simp only [Option.some.injEq]
            constructor
            · intro h; exact absurd h (by simp)
            · rintro ⟨s', n, rfl, hp', _⟩
              rw [hp] at hp'; exact absurd hp' (by simp)
          | some n =>
            by_cases hn : n > 1048576
            · simp only [hn, if_pos]
              constructor
              · intro _; exact ⟨s, n, rfl, hp, hn⟩
              · intro _; trivial
            · simp only [hn, if_neg, Bool.false_eq_true]
              constructor
              · intro h; exact absurd h (by simp)
              · rintro ⟨s', n', hs', hp', hn'⟩
                obtain rfl : s' = s := by injection hs' with h; exact h.symm
                rw [hp] at hp'
                obtain rfl : n' = n := by injection hp' with h; exact h.symm
                exact absurd hn' hn
  · intro s hcl hp
    by_cases hu : urlSuspicious url
    · simp [validate_request, hu]
    · by_cases hs : s = []
      · simp [validate_request, hu, hs]
      · simp [validate_request, hu, hs, hp]

/-- C2: `validate_items` accepts exactly the submissions whose lines carry
pairwise-distinct menu-item IDs — independent of names, prices and
quantities — and any duplicated ID is rejected with the fixed error message
naming duplication; an accepted list therefore never holds two lines with
the same menu-item ID. -/
theorem validate_items_of_dup (v : List OrderItemCreate)
    (h : (v.map OrderItemCreate.id).length ≠ (v.map OrderItemCreate.id).dedup.length) :
    validate_items v = Except.error duplicateItemsMsg := by
  simp only [validate_items]
  rw [if_pos h]

theorem validate_items_of_nodup (v : List OrderItemCreate)
    (h : ¬ (v.map OrderItemCreate.id).length ≠ (v.map OrderItemCreate.id).dedup.length) :
    validate_items v = Except.ok v := by
  simp only [validate_items]
  rw [if_neg h]

theorem validate_items_c2 (v : List OrderItemCreate) :
    (validate_items v = Except.ok v ↔ (v.map OrderItemCreate.id).Nodup) ∧
    ((¬ (v.map OrderItemCreate.id).Nodup) →
      validate_items v = Except.error duplicateItemsMsg ∧
      pyIn (("Duplicate").toList) duplicateItemsMsg = true) ∧
    (∀ r, validate_items v = Except.ok r → (r.map OrderItemCreate.id).Nodup) := by
  by_cases h : (v.map OrderItemCreate.id).length = (v.map OrderItemCreate.id).dedup.length
  · have hnd : (v.map OrderItemCreate.id).Nodup :=
      (length_eq_dedup_iff_nodup _).mp h
    have hok := validate_items_of_nodup v (by simpa using h)
    refine ⟨by simp [hok, hnd], fun hc => absurd hnd hc, ?_⟩
    intro r hr
    rw [hok] at hr
    obtain rfl : v = r := by injection hr
    exact hnd
  · have hnd : ¬ (v.map OrderItemCreate.id).Nodup := fun hn =>
      h ((length_eq_dedup_iff_nodup _).mpr hn)
    have herr := validate_items_of_dup v h
    refine ⟨?_, fun _ => ⟨herr, by decide⟩, ?_⟩
    · simp [herr, hnd]
    · intro r hr
      rw [herr] at hr
      exact absurd hr (by simp)

/-- C2 witness: two lines sharing one menu-item ID but differing in name,
price and quantity are rejected with the duplication message. -/
theorem validate_items_c2_witness :
    validate_items
        [⟨("a").toList, ("x").toList, 1, 1⟩, ⟨("a").toList, ("y").toList, 2, 3⟩] =
      Except.error duplicateItemsMsg ∧
    pyIn (("Duplicate").toList) duplicateItemsMsg = true :=
  (validate_items_c2
    [⟨("a").toList, ("x").toList, 1, 1⟩, ⟨("a").toList, ("y").toList, 2, 3⟩]).2.1
    (by decide)

/-- C8 witness: a header that fails integer parsing is ignored, behaving
exactly like an absent header. -/
theorem validate_request_c8_witness :
    validate_request (("http://x/a").toList) (some (("abc").toList)) =
      validate_request (("http://x/a").toList) none :=
  (validate_request_c8 (("http://x/a").toList) (some (("abc").toList))).2.2
    (("abc").toList) rfl (by decide)

theorem floor_le_roundHalfEven (q : ℚ) : ⌊q⌋ ≤ roundHalfEven q := by
  unfold roundHalfEven
  split_ifs <;> omega

theorem roundHalfEven_le_ceil (q : ℚ) : roundHalfEven q ≤ ⌈q⌉ := by
  unfold roundHalfEven
  split_ifs with h1 h2 h3
  · exact Int.floor_le_ceil q
  · rw [Int.add_one_le_ceil_iff]
    have : (0 : ℚ) < q - ⌊q⌋ := lt_trans (by norm_num) h2
    linarith
  · exact Int.floor_le_ceil q
  · rw [Int.add_one_le_ceil_iff]
    have hfrac : q - ⌊q⌋ = 1/2 := le_antisymm (not_lt.mp h2) (not_lt.mp h1)
    have : (0 : ℚ) < q - ⌊q⌋ := by rw [hfrac]; norm_num
    linarith

theorem roundTo2_twoDecimal (q : ℚ) : (roundTo2 q * 100).den = 1 := by
  unfold roundTo2
  rw [div_mul_cancel₀ _ (by norm_num : (100 : ℚ) ≠ 0)]
  exact Rat.den_intCast _

theorem roundTo2_nonneg (q : ℚ) (h : 0 < q) : 0 ≤ roundTo2 q := by
  unfold roundTo2
  have h1 : (0 : ℤ) ≤ ⌊q * 100⌋ := by
    rw [Int.le_floor]
    positivity
  have h2 : (0 : ℤ) ≤ roundHalfEven (q * 100) :=
    le_trans h1 (floor_le_roundHalfEven _)
  positivity

theorem roundTo2_le_10000 (q : ℚ) (h : q ≤ 10000) : roundTo2 q ≤ 10000 := by
  unfold roundTo2
  have h1 : ⌈q * 100⌉ ≤ 1000000 := by
    rw [Int.ceil_le]
    push_cast
    linarith
  have h2 : roundHalfEven (q * 100) ≤ 1000000 :=
    le_trans (roundHalfEven_le_ceil _) h1
  rw [div_le_iff₀ (by norm_num : (0 : ℚ) < 100)]
  calc (roundHalfEven (q * 100) : ℚ) ≤ 1000000 := by exact_mod_cast h2
    _ = 10000 * 100 := by norm_num

/-- C5 counterexample: the input 0.004 is accepted (it passes `gt=0` and
the validator's own bound checks), yet `round(0.004, 2)` is 0, so the
resulting price is *not* strictly positive. -/
theorem validate_price_c5_counterexample :
    (0 : ℚ) < 1/250 ∧ (1/250 : ℚ) ≤ 10000 ∧
    validate_price (1/250) = Except.ok 0 ∧ ¬ (0 : ℚ) > 0 := by
  refine ⟨by norm_num, by norm_num, ?_, by norm_num⟩
  norm_num [validate_price, roundTo2, roundHalfEven]

/-- C5 (amended): every accepted price input is returned rounded to
exactly 2 decimal places with `0 ≤ price ≤ 10000` (not `0 < price`:
accepted inputs below 0.005 round to 0), and every input outside
`(0, 10000]` is rejected by the validator before any storage runs. -/
theorem validate_price_c5 (v : ℚ) :
    (∀ p, validate_price v = Except.ok p →
      p = roundTo2 v ∧ (p * 100).den = 1 ∧ 0 ≤ p ∧ p ≤ 10000) ∧
    ((v ≤ 0 ∨ 10000 < v) → ∃ msg, validate_price v = Except.error msg) ∧
    (0 < v → v ≤ 10000 → validate_price v = Except.ok (roundTo2 v)) := by
  refine ⟨?_, ?_, ?_⟩
  · intro p hp
    unfold validate_price at hp
    by_cases h1 : v ≤ 0
    · rw [if_pos h1] at hp; exact absurd hp (by simp)
    · rw [if_neg h1] at hp
      by_cases h2 : 10000 < v
      · rw [if_pos h2] at hp; exact absurd hp (by simp)
      · rw [if_neg h2] at hp
        obtain rfl : roundTo2 v = p := by injection hp
        exact ⟨rfl, roundTo2_twoDecimal v,
          roundTo2_nonneg v (not_le.mp h1), roundTo2_le_10000 v (not_lt.mp h2)⟩
  · rintro (h | h)
    · exact ⟨_, by unfold validate_price; rw [if_pos h]⟩
    · exact ⟨_, by unfold validate_price; rw [if_neg (by linarith), if_pos h]⟩
  · intro h1 h2
    unfold validate_price
    rw [if_neg (not_le.mpr h1), if_neg (not_lt.mpr h2)]

/-- C5 witness: 12.995 is accepted and rounds (half-to-even) to 13.00,
two exact decimal places inside the range. -/
theorem validate_price_c5_witness :
    validate_price (12995/1000) = Except.ok (roundTo2 (12995/1000)) ∧
    roundTo2 (12995/1000) = 13 :=
  ⟨(validate_price_c5 (12995/1000)).2.2 (by norm_num) (by norm_num),
    by norm_num [roundTo2, roundHalfEven]⟩

/-- C4 counterexample: a token/connection failure happens *before* the
`try` in both read paths (connection and cursor acquisition), so it
propagates to the HTTP caller instead of being swallowed — the menu read
does not fall back to the sample list and the orders read does not return
the empty collection. -/
theorem reads_degrade_c4_counterexample :
    get_menu_items (Except.error (("Failed to generate DSQL token").toList))
        (Except.ok []) (fun _ => []) 0 =
      Except.error (("Failed to generate DSQL token").toList) ∧
    get_all_orders (Except.error (("Failed to generate DSQL token").toList))
        (Except.ok []) =
      Except.error (("Failed to generate DSQL token").toList) :=
  ⟨rfl, rfl⟩

/-- C4 (amended): failures raised inside the read queries are swallowed —
a failed menu SELECT yields the in-memory sample list and a failed orders
SELECT yields the empty list — but a failure while acquiring the
connection or cursor, which runs before the `try`, propagates to the HTTP
caller (where the route handler surfaces it as a 500). -/
theorem reads_degrade_c4 (e econn : List Char)
    (qm : Except (List Char) (List MenuRow))
    (qo : Except (List Char) (List OrderRow))
    (gen : ℕ → List Char) (now : ℕ) :
    get_menu_items (Except.ok ()) (Except.error e) gen now =
      Except.ok (get_sample_menu_items gen now) ∧
    get_all_orders (Except.ok ()) (Except.error e) = Except.ok [] ∧
    get_menu_items (Except.error econn) qm gen now = Except.error econn ∧
    get_all_orders (Except.error econn) qo = Except.error econn :=
  ⟨rfl, rfl, rfl, rfl⟩

/-- C7: `ensure_tables_exist` creates `menu_items`, commits, creates
`orders`, commits — in that order — so every commit-delimited transaction
of any of its traces holds at most one DDL statement, and whenever the
function fails its trace ends in a rollback (and the error re-raises). -/
theorem ensure_tables_exist_c7 (failAt : Option ℕ) :
    (ensure_tables_exist none).1 =
      [SqlOp.createTable (("menu_items").toList), SqlOp.commit,
       SqlOp.createTable (("orders").toList), SqlOp.commit] ∧
    (ensure_tables_exist none).2 = true ∧
    (∀ seg ∈ txSegments (ensure_tables_exist failAt).1, ddlCount seg ≤ 1) ∧
    ((ensure_tables_exist failAt).2 = false →
      (ensure_tables_exist failAt).1.getLast? = some SqlOp.rollback) := by
  have hbig : ∀ k, ensure_tables_exist (some (k + 4)) = (ensureTablesProgram, true) := by
    intro k
    simp [ensure_tables_exist, ensureTablesProgram, runSql]
  refine ⟨by decide, by decide, ?_, ?_⟩
  · match failAt with
    | none => decide
    | some 0 => decide
    | some 1 => decide
    | some 2 => decide
    | some 3 => decide
    | some (k + 4) => rw [hbig k]; decide
  · match failAt with
    | none => decide
    | some 0 => decide
    | some 1 => decide
    | some 2 => decide
    | some 3 => decide
    | some (k + 4) => rw [hbig k]; decide

/-- C7 witness: a failure at the third operation (the `orders` DDL) makes
the trace end in a rollback. -/
theorem ensure_tables_exist_c7_witness :
    (ensure_tables_exist (some 2)).1.getLast? = some SqlOp.rollback :=
  (ensure_tables_exist_c7 (some 2)).2.2.2 (by decide)

/-- C9: when the menu-item count is nonzero the initializer performs no
insert or delete and leaves the rows unchanged; only on a zero count does
it clear the table and insert the six seed items, committing once at the
end; hence a second consecutive call is always a data no-op. -/
theorem initialize_c9 (db : List MenuRow) (gen gen2 : ℕ → List Char)
    (now now2 : ℕ) :
    (db.length ≠ 0 → initialize_database_with_sample_data db gen now = (db, [])) ∧
    (db.length = 0 →
      initialize_database_with_sample_data db gen now =
        (sample_items.enum.map (fun p => seedRow gen now p.1 p.2),
         [SeedAction.deleteAllMenuItems] ++
           sample_items.map (fun it => SeedAction.insertMenuItem it.name) ++
           [SeedAction.commitSeed])) ∧
    initialize_database_with_sample_data
        (initialize_database_with_sample_data db gen now).1 gen2 now2 =
      ((initialize_database_with_sample_data db gen now).1, []) := by
  have key : ∀ (x : List MenuRow) (g : ℕ → List Char) (n : ℕ), x.length ≠ 0 →
      initialize_database_with_sample_data x g n = (x, []) := by
    intro x g n hx
    simp [initialize_database_with_sample_data, hx]
  refine ⟨key db gen now, ?_, ?_⟩
  · intro h
    simp [initialize_database_with_sample_data, h, create_sample_menu_items]
  · by_cases h : db.length = 0
    · apply key
      have : initialize_database_with_sample_data db gen now =
          create_sample_menu_items db gen now := by
        simp [initialize_database_with_sample_data, h]
      rw [this]
      simp [create_sample_menu_items, sample_items]
    · rw [key db gen now h]
      exact key db gen2 now2 h

/-- C9 witness: a table already holding a row is left untouched with no
data actions. -/
theorem initialize_c9_witness :
    initialize_database_with_sample_data
        [⟨("m1").toList, ("n").toList, ("d").toList, 1, ("c").toList,
          none, true, some 0⟩]
        (fun _ => ("u").toList) 5 =
      ([⟨("m1").toList, ("n").toList, ("d").toList, 1, ("c").toList,
          none, true, some 0⟩], []) :=
  (initialize_c9
      [⟨("m1").toList, ("n").toList, ("d").toList, 1, ("c").toList,
        none, true, some 0⟩]
      (fun _ => ("u").toList) (fun _ => ("u").toList) 5 5).1 (by decide)

/-! ### Inversion of a successful `create_order` -/

theorem find?_id_append_fresh (rows : List OrderRow) (fresh : OrderRow)
    (newId : List Char) (hid : fresh.id = newId)
    (hnone : rows.any (fun r => r.id == newId) = false) :
    (rows ++ [fresh]).find? (fun r => r.id == newId) = some fresh := by
  induction rows with
  | nil => simp [List.find?, hid]
  | cons r t ih =>
    rw [List.any_cons, Bool.or_eq_false_iff] at hnone
    simp only [List.cons_append, List.find?]
    rw [hnone.1]
    exact ih hnone.2

theorem find?_id_none_of_any_false (rows : List OrderRow) (newId : List Char)
    (hnone : rows.any (fun r => r.id == newId) = false) :
    rows.find? (fun r => r.id == newId) = none := by
  induction rows with
  | nil => rfl
  | cons r t ih =>
    rw [List.any_cons, Bool.or_eq_false_iff] at hnone
    simp only [List.find?]
    rw [hnone.1]
    exact ih hnone.2

theorem newestRow_append_fresh (rows : List OrderRow) (fresh : OrderRow)
    (h : ∀ r ∈ rows, r.created_at < fresh.created_at) :
    newestRow (rows ++ [fresh]) = some fresh := by
  induction rows with
  | nil => rfl
  | cons r t ih =>
    have hr : r.created_at < fresh.created_at := h r (List.mem_cons_self r t)
    have ht : newestRow (t ++ [fresh]) = some fresh :=
      ih (fun x hx => h x (List.mem_cons_of_mem r hx))
    simp only [List.cons_append, newestRow, List.append_eq, ht]
    rw [if_neg (by omega)]

theorem create_order_ok_inv (cn ce : List Char) (items : List OrderItemCreate)
    (total : ℚ) (db : OrdersDb) (newId : List Char) (m1 m2 : Bool)
    (row : OrderRow) (db' : OrdersDb)
    (h : create_order cn ce items total db newId m1 m2 = Except.ok (row, db')) :
    db.rows.any (fun r => r.id == newId) = false ∧
    db' = ⟨db.rows ++ [freshOrderRow (sanitize_string cn 255)
      (sanitize_string ce 255) items total db.clock newId], db.clock + 1⟩ ∧
    ((if m1 then db.rows else db.rows ++ [freshOrderRow (sanitize_string cn 255)
        (sanitize_string ce 255) items total db.clock newId]).find?
      (fun r => r.id == newId)).orElse
      (fun _ => newestRow (if m2 then db.rows else db.rows ++
        [freshOrderRow (sanitize_string cn 255) (sanitize_string ce 255)
          items total db.clock newId])) = some row := by
  simp only [create_order] at h
  by_cases hc1 : sanitize_string cn 255 = [] ∨ sanitize_string ce 255 = []
  · rw [if_pos hc1] at h; exact absurd h (by simp)
  rw [if_neg hc1] at h
  by_cases hc2 : items = []
  · rw [if_pos hc2] at h; exact absurd h (by simp)
  rw [if_neg hc2] at h
  by_cases hc3 : total ≤ 0 ∨ 100000 < total
  · rw [if_pos hc3] at h; exact absurd h (by simp)
  rw [if_neg hc3] at h
  by_cases hc4 : db.rows.any (fun r => r.id == newId) = true
  · rw [if_pos hc4] at h; exact absurd h (by simp)
  rw [if_neg hc4] at h
  refine ⟨by simpa using hc4, ?_⟩
  rcases ho : ((if m1 then db.rows else db.rows ++ [freshOrderRow
      (sanitize_string cn 255) (sanitize_string ce 255) items total db.clock
      newId]).find? (fun r => r.id == newId)).orElse
      (fun _ => newestRow (if m2 then db.rows else db.rows ++
        [freshOrderRow (sanitize_string cn 255) (sanitize_string ce 255)
          items total db.clock newId])) with _ | row'
  · rw [ho] at h; exact absurd h (by simp)
  · rw [ho] at h
    simp only [Except.ok.injEq, Prod.mk.injEq] at h
    obtain ⟨hrow, hdb⟩ := h
    exact ⟨hdb.symm, congrArg some hrow⟩

/-- C1 counterexample: under the double-miss read anomaly with an older
order present, the endpoint accepts the request (returns ok) but hands
back the older order, whose `total_amount` (5) differs from the
server-computed sum (13) of the submitted lines — so the original
universal claim about the returned record fails. -/
theorem create_order_endpoint_c1_counterexample :
    computeTotal [⟨("m7").toList, ("Lamb Kabob").toList, 13, 1⟩] = 13 ∧
    create_order_endpoint
        ⟨("Bob").toList, ("bob@y.com").toList,
          [⟨("m7").toList, ("Lamb Kabob").toList, 13, 1⟩]⟩
        ⟨[⟨("o9").toList, ("Alice").toList, ("alice@y.com").toList,
           [⟨("m7").toList, ("Lamb Kabob").toList, 5, 1⟩], 5,
           ("pending").toList, 0⟩], 1⟩
        (("b9").toList) true true =
      Except.ok
        (⟨("o9").toList, ("Alice").toList, ("alice@y.com").toList,
           [⟨("m7").toList, ("Lamb Kabob").toList, 5, 1⟩], 5,
           ("pending").toList, 0⟩,
         ⟨[⟨("o9").toList, ("Alice").toList, ("alice@y.com").toList,
            [⟨("m7").toList, ("Lamb Kabob").toList, 5, 1⟩], 5,
            ("pending").toList, 0⟩,
           ⟨("b9").toList, ("Bob").toList, ("bob@y.com").toList,
            [⟨("m7").toList, ("Lamb Kabob").toList, 13, 1⟩], 13,
            ("pending").toList, 1⟩], 2⟩) ∧
    (5 : ℚ) ≠ 13 := by
  have htot : computeTotal [⟨("m7").toList, ("Lamb Kabob").toList, 13, 1⟩]
      = 13 := by simp [computeTotal]
  refine ⟨htot, ?_, by norm_num⟩
  unfold create_order_endpoint
  rw [htot]
  rfl

/-- C1 (amended): whenever the order endpoint accepts a request, the
*stored* order row carries exactly the server-computed sum of
`price * quantity` over the submitted lines — `OrderCreate` has no total
field, so no client value can influence it — and the *returned* record
carries that same total whenever at least one of the two post-insert
re-reads sees the inserted row (in particular in every anomaly-free
execution). -/
theorem create_order_endpoint_c1 (order : OrderCreate) (db : OrdersDb)
    (newId : List Char) (idMiss fbMiss : Bool) (row : OrderRow)
    (db' : OrdersDb) (hwf : db.WF)
    (h : create_order_endpoint order db newId idMiss fbMiss =
      Except.ok (row, db')) :
    (db'.rows = db.rows ++ [freshOrderRow
        (sanitize_string order.customer_name 255)
        (sanitize_string order.customer_email 255) order.items
        (computeTotal order.items) db.clock newId] ∧
      (freshOrderRow (sanitize_string order.customer_name 255)
        (sanitize_string order.customer_email 255) order.items
        (computeTotal order.items) db.clock newId).total_amount =
        (order.items.map (fun i => i.price * (i.quantity : ℚ))).sum) ∧
    (idMiss = false ∨ fbMiss = false →
      row.total_amount = computeTotal order.items ∧
      row.total_amount =
        (order.items.map (fun i => i.price * (i.quantity : ℚ))).sum) := by
  unfold create_order_endpoint at h
  obtain ⟨hany, hdb', hsel⟩ := create_order_ok_inv _ _ _ _ _ _ _ _ _ _ h
  refine ⟨⟨by rw [hdb'], rfl⟩, ?_⟩
  intro hcase
  have hrow : freshOrderRow (sanitize_string order.customer_name 255)
      (sanitize_string order.customer_email 255) order.items
      (computeTotal order.items) db.clock newId = row := by
    cases hid : idMiss with
    | false =>
      rw [hid] at hsel
      rw [if_neg (by simp), find?_id_append_fresh db.rows _ newId rfl hany] at hsel
      simp only [Option.orElse, Option.some.injEq] at hsel
      exact hsel
    | true =>
      rcases hcase with h0 | h0
      · rw [hid] at h0; exact absurd h0 (by simp)
      · rw [hid, h0] at hsel
        rw [if_pos rfl, if_neg (by simp),
          find?_id_none_of_any_false db.rows newId hany] at hsel
        rw [newestRow_append_fresh db.rows _ (fun r hr => hwf r hr)] at hsel
        simp only [Option.orElse, Option.some.injEq] at hsel
        exact hsel
  rw [← hrow]
  exact ⟨rfl, rfl⟩

/-- C1 witness: an anomaly-free acceptance of a one-line order with unit
price 13 and quantity 1 stores and returns total 13. -/
theorem create_order_endpoint_c1_witness :
    ∃ row db',
      create_order_endpoint
          ⟨("John").toList, ("john@x.com").toList,
            [⟨("a1").toList, ("Chicken Kabob").toList, 13, 1⟩]⟩
          ⟨[], 0⟩ (("u1").toList) false false = Except.ok (row, db') ∧
      row.total_amount =
        computeTotal [⟨("a1").toList, ("Chicken Kabob").toList, 13, 1⟩] := by
  have htot : computeTotal [⟨("a1").toList, ("Chicken Kabob").toList, 13, 1⟩]
      = 13 := by simp [computeTotal]
  have h : create_order_endpoint
      ⟨("John").toList, ("john@x.com").toList,
        [⟨("a1").toList, ("Chicken Kabob").toList, 13, 1⟩]⟩
      ⟨[], 0⟩ (("u1").toList) false false =
      Except.ok
        (⟨("u1").toList, ("John").toList, ("john@x.com").toList,
          [⟨("a1").toList, ("Chicken Kabob").toList, 13, 1⟩],
          13, ("pending").toList, 0⟩,
         ⟨[⟨("u1").toList, ("John").toList, ("john@x.com").toList,
            [⟨("a1").toList, ("Chicken Kabob").toList, 13, 1⟩],
            13, ("pending").toList, 0⟩], 1⟩) := by
    unfold create_order_endpoint
    rw [htot]
    rfl
  exact ⟨_, _, h,
    ((create_order_endpoint_c1 _ _ _ _ _ _ _
      (by intro r hr; exact absurd hr (List.not_mem_nil r)) h).2 (Or.inl rfl)).1⟩

/-- C6 counterexample: when both re-reads miss the fresh row while an
older order exists, `create_order` returns successfully with the *old*
order, whose customer name and total differ from the just-inserted
values — no persistence error and no match, against the claim. -/
theorem create_order_c6_counterexample :
    create_order (("Bob").toList) (("bob@x.com").toList)
        [⟨("a1").toList, ("Kabob").toList, 7, 1⟩] 7
        ⟨[⟨("o0").toList, ("Alice").toList, ("alice@x.com").toList,
           [⟨("a1").toList, ("Kabob").toList, 5, 1⟩], 5, ("pending").toList, 0⟩],
          1⟩
        (("b1").toList) true true =
      Except.ok
        (⟨("o0").toList, ("Alice").toList, ("alice@x.com").toList,
           [⟨("a1").toList, ("Kabob").toList, 5, 1⟩], 5, ("pending").toList, 0⟩,
         ⟨[⟨("o0").toList, ("Alice").toList, ("alice@x.com").toList,
            [⟨("a1").toList, ("Kabob").toList, 5, 1⟩], 5, ("pending").toList, 0⟩,
           ⟨("b1").toList, ("Bob").toList, ("bob@x.com").toList,
            [⟨("a1").toList, ("Kabob").toList, 7, 1⟩], 7, ("pending").toList, 1⟩],
          2⟩) ∧
    (("Alice").toList ≠ sanitize_string (("Bob").toList) 255) ∧
    ((5 : ℚ) ≠ 7) := by
  refine ⟨by rfl, by decide, by norm_num⟩

/-- C6 (amended): when the re-query by ID misses, the workflow answers
from the newest-order fallback; the returned record's customer name,
e-mail and total match the just-inserted values whenever that fallback
sees the inserted row, and when the fallback itself returns no row the
call fails with the persistence error instead of returning. -/
theorem create_order_c6 (cn ce : List Char) (items : List OrderItemCreate)
    (total : ℚ) (db : OrdersDb) (newId : List Char) (hwf : db.WF) :
    (∀ row db',
      create_order cn ce items total db newId true false = Except.ok (row, db') →
      row.customer_name = sanitize_string cn 255 ∧
      row.customer_email = sanitize_string ce 255 ∧
      row.total_amount = total) ∧
    (db.rows = [] →
      sanitize_string cn 255 ≠ [] → sanitize_string ce 255 ≠ [] →
      items ≠ [] → 0 < total → total ≤ 100000 →
      create_order cn ce items total db newId true true =
        Except.error (OrderError.persistence orderUnreadableMsg)) := by
  constructor
  · intro row db' h
    obtain ⟨hany, _, hsel⟩ := create_order_ok_inv _ _ _ _ _ _ _ _ _ _ h
    rw [if_pos rfl, if_neg (by simp),
      find?_id_none_of_any_false db.rows newId hany] at hsel
    have hnewest : newestRow (db.rows ++ [freshOrderRow (sanitize_string cn 255)
        (sanitize_string ce 255) items total db.clock newId]) =
        some (freshOrderRow (sanitize_string cn 255) (sanitize_string ce 255)
          items total db.clock newId) :=
      newestRow_append_fresh db.rows _ (fun r hr => hwf r hr)
    rw [hnewest] at hsel
    simp only [Option.orElse, Option.some.injEq] at hsel
    rw [← hsel]
    exact ⟨rfl, rfl, rfl⟩
  · intro hrows h1 h2 h3 h4 h5
    simp only [create_order]
    rw [if_neg (by push_neg; exact ⟨h1, h2⟩), if_neg h3,
      if_neg (by push_neg; exact ⟨h4, h5⟩)]
    rw [hrows]
    rfl

/-- C6 witness: with an empty orders table and both re-reads missing, the
call fails with the persistence error. -/
theorem create_order_c6_witness :
    create_order (("Bob").toList) (("bob@x.com").toList)
        [⟨("a1").toList, ("Kabob").toList, 7, 1⟩] 7 ⟨[], 0⟩
        (("b1").toList) true true =
      Except.error (OrderError.persistence orderUnreadableMsg) :=
  (create_order_c6 (("Bob").toList) (("bob@x.com").toList)
      [⟨("a1").toList, ("Kabob").toList, 7, 1⟩] 7 ⟨[], 0⟩ (("b1").toList)
      (by intro r hr; exact absurd hr (List.not_mem_nil r))).2
    rfl (by decide) (by decide) (by decide) (by norm_num) (by norm_num)

theorem needsRefresh_iff (st : MgrState) (now : ℕ) :
    needsRefresh st now = true ↔
      (st.token = none ∨ st.token_expires_at = none ∨
        (∃ e, st.token_expires_at = some e ∧ e ≤ now) ∨
        st.connection = none ∨
        (∃ c, st.connection = some c ∧ c.closed ≠ 0)) := by
  rcases st with ⟨conn, tk, exp⟩
  cases tk <;> cases exp <;> cases conn <;>
    simp [needsRefresh]

/-- C3: one `get_connection` call fetches a fresh token and opens a new
connection exactly when no token or cached expiry exists, the current time
has reached the cached expiry, no connection exists, or the connection
reports itself closed — closing the previous connection beforehand exactly
when an open one exists; otherwise it hands back the existing connection,
rolling back first iff it reports an in-error transaction.  In every case
the state it leaves behind carries a token-expiry instant strictly after
`now`, so no returned connection has an expired cached token. -/
theorem get_connection_c3 (st : MgrState) (now : ℕ) (tok : List Char) :
    ((MgrAction.fetchToken ∈ (get_connection st now tok).2.2 ∧
      MgrAction.openNew ∈ (get_connection st now tok).2.2) ↔
      (st.token = none ∨ st.token_expires_at = none ∨
        (∃ e, st.token_expires_at = some e ∧ e ≤ now) ∨
        st.connection = none ∨
        (∃ c, st.connection = some c ∧ c.closed ≠ 0))) ∧
    (MgrAction.closeOld ∈ (get_connection st now tok).2.2 ↔
      (needsRefresh st now = true ∧
        ∃ c, st.connection = some c ∧ c.closed = 0)) ∧
    (needsRefresh st now = false →
      ∃ c, st.connection = some c ∧
        (get_connection st now tok).2.1 =
          ⟨c.closed, if c.txStatus = TxStatus.inError then TxStatus.idle
            else c.txStatus⟩ ∧
        (MgrAction.rollback ∈ (get_connection st now tok).2.2 ↔
          c.txStatus = TxStatus.inError)) ∧
    (∃ e, (get_connection st now tok).1.token_expires_at = some e ∧ now < e) := by
  obtain ⟨conn, tk, exp⟩ := st
  by_cases hr : needsRefresh ⟨conn, tk, exp⟩ now = true
  · have hconds := (needsRefresh_iff ⟨conn, tk, exp⟩ now).mp hr
    refine ⟨iff_of_true ⟨by simp [get_connection, hr], by simp [get_connection, hr]⟩ hconds,
      ?_, ?_, ?_⟩
    · cases conn with
      | none =>
        have hacts : (get_connection ⟨none, tk, exp⟩ now tok).2.2 =
            [MgrAction.fetchToken, MgrAction.openNew] := by
          simp [get_connection, hr]
        rw [hacts]
        constructor
        · intro hmem; exact absurd hmem (by decide)
        · rintro ⟨_, c, hcc, _⟩; exact absurd hcc (by simp)
      | some c =>
        by_cases hcl : c.closed = 0
        · have hacts : (get_connection ⟨some c, tk, exp⟩ now tok).2.2 =
              [MgrAction.fetchToken, MgrAction.closeOld, MgrAction.openNew] := by
            simp [get_connection, hr, hcl]
          rw [hacts]
          constructor
          · intro _; exact ⟨hr, c, rfl, hcl⟩
          · intro _; decide
        · have hacts : (get_connection ⟨some c, tk, exp⟩ now tok).2.2 =
              [MgrAction.fetchToken, MgrAction.openNew] := by
            simp [get_connection, hr, hcl]
          rw [hacts]
          constructor
          · intro hmem; exact absurd hmem (by decide)
          · rintro ⟨_, c2, hcc, hcl2⟩
            obtain rfl : c = c2 := by injection hcc
            exact absurd hcl2 hcl
    · intro hfalse
      rw [hr] at hfalse
      exact absurd hfalse (by decide)
    · refine ⟨now + tokenRefreshWindow, ?_, by unfold tokenRefreshWindow; omega⟩
      simp [get_connection, hr]
  · have hf : needsRefresh ⟨conn, tk, exp⟩ now = false := by
      cases h : needsRefresh ⟨conn, tk, exp⟩ now
      · rfl
      · exact absurd h hr
    cases tk with
    | none => simp [needsRefresh] at hf
    | some t =>
      cases exp with
      | none => simp [needsRefresh] at hf
      | some e =>
        cases conn with
        | none => simp [needsRefresh] at hf
        | some c =>
          obtain ⟨cl, ts⟩ := c
          have hfacts : ¬ e ≤ now ∧ cl = 0 := by
            simpa [needsRefresh] using hf
          obtain ⟨hnow, hcl⟩ := hfacts
          refine ⟨?_, ?_, ?_, ?_⟩
          · refine iff_of_false ?_ ?_
            · rintro ⟨hmem, _⟩
              by_cases hie : ts = TxStatus.inError
              · subst hie
                simp [get_connection, hf] at hmem
              · simp [get_connection, hf, hie] at hmem
            · rintro (h | h | ⟨x, hx, hle⟩ | h | ⟨x, hx, hcl2⟩)
              · exact absurd h (by simp)
              · exact absurd h (by simp)
              · obtain rfl : e = x := by injection hx
                exact hnow hle
              · exact absurd h (by simp)
              · obtain rfl : (⟨cl, ts⟩ : PgConn) = x := by injection hx
                exact hcl2 hcl
          · constructor
            · intro hmem
              by_cases hie : ts = TxStatus.inError
              · subst hie
                simp [get_connection, hf] at hmem
              · simp [get_connection, hf, hie] at hmem
            · rintro ⟨habs, _⟩
              rw [hf] at habs
              exact absurd habs (by decide)
          · intro _
            refine ⟨⟨cl, ts⟩, rfl, ?_, ?_⟩
            · by_cases hie : ts = TxStatus.inError
              · subst hie
                simp [get_connection, hf]
              · simp [get_connection, hf, hie]
            · by_cases hie : ts = TxStatus.inError
              · subst hie
                simp [get_connection, hf]
              · simp [get_connection, hf, hie]
          · refine ⟨e, ?_, by omega⟩
            by_cases hie : ts = TxStatus.inError
            · subst hie
              simp [get_connection, hf]
            · simp [get_connection, hf, hie]

/-- C3 witness: with a live token (expiry 100, now 10) and an open
connection in a failed transaction, the call hands back that connection
after a rollback. -/
theorem get_connection_c3_witness :
    ∃ c, (⟨some ⟨0, TxStatus.inError⟩, some (("tk").toList),
        some 100⟩ : MgrState).connection = some c ∧
      (get_connection ⟨some ⟨0, TxStatus.inError⟩, some (("tk").toList),
          some 100⟩ 10 (("t2").toList)).2.1 =
        ⟨c.closed, if c.txStatus = TxStatus.inError then TxStatus.idle
          else c.txStatus⟩ ∧
      (MgrAction.rollback ∈
          (get_connection ⟨some ⟨0, TxStatus.inError⟩, some (("tk").toList),
            some 100⟩ 10 (("t2").toList)).2.2 ↔
        c.txStatus = TxStatus.inError) :=
  (get_connection_c3 ⟨some ⟨0, TxStatus.inError⟩, some (("tk").toList),
      some 100⟩ 10 (("t2").toList)).2.2.1 (by decide)

/-- C10: `sanitize_string` with `max_length` 255 returns at most 255
characters, free of null bytes, with no leading or trailing whitespace,
and it is idempotent. -/
theorem sanitize_string_c10 (value : List Char) :
    (sanitize_string value 255).length ≤ 255 ∧
    '\x00' ∉ sanitize_string value 255 ∧
    Stripped (sanitize_string value 255) ∧
    sanitize_string (sanitize_string value 255) 255 = sanitize_string value 255 :=
  ⟨sanitize_string_length_le value, sanitize_string_no_null value,
    sanitize_string_stripped value, sanitize_string_idem value⟩

end KabobStore
